import Mathlib

/-!
Verification of the quiz-chain orchestration and answer-resolution pipeline
(`quiz-solver` module: `solveMasterQuiz`, `solveSingleQuiz`, `solveQuizQuestion`,
`detectFileType`, `parseAnswer`, `submitAnswer`).

The JavaScript source is shallowly embedded: pure helpers become Lean
functions on `String` (represented through their `List Char` data), the
external collaborators (headless browser renderer, file downloader,
per-format extractors, LLM client, HTTP submission transport) become
oracle fields of an environment record returning `Except`/outcome values,
and the stateful orchestration loop becomes a structurally recursive
function that also records a trace of observable events (downloads, LLM
queries with their prompt shape, submission posts).

JavaScript numbers are modelled with exact rationals plus explicit
NaN/Infinity constructors; this agrees with IEEE-754 doubles on everything
the claims touch (NaN-classification of `Number(s)` and the values of small
decimal literals).
-/

/-! ## JavaScript string primitives -/

/-- Character set removed by `String.prototype.trim` (ECMAScript WhiteSpace
and LineTerminator code points). -/
def isJsWs (c : Char) : Bool :=
  c.toNat == 9 || c.toNat == 10 || c.toNat == 11 || c.toNat == 12 ||
  c.toNat == 13 || c.toNat == 32 || c.toNat == 160 || c.toNat == 0x1680 ||
  (0x2000 ≤ c.toNat && c.toNat ≤ 0x200A) || c.toNat == 0x2028 ||
  c.toNat == 0x2029 || c.toNat == 0x202F || c.toNat == 0x205F ||
  c.toNat == 0x3000 || c.toNat == 0xFEFF

/-- Model of `s.trim()`. -/
def jsTrim (s : String) : String :=
  String.mk (((s.data.dropWhile isJsWs).reverse.dropWhile isJsWs).reverse)

/-- Model of `s.toLowerCase()` on the Basic Latin range (the JS function is
Unicode-aware, but every pattern the source compares against is ASCII). -/
def jsCharLower (c : Char) : Char :=
  if 65 ≤ c.toNat && c.toNat ≤ 90 then Char.ofNat (c.toNat + 32) else c

/-- Model of `s.toLowerCase()`. -/
def jsToLowerCase (s : String) : String :=
  String.mk (s.data.map jsCharLower)

/-- List search underlying `String.prototype.includes`. -/
def strIncludesL (pat : List Char) : List Char → Bool
  | [] => pat.isEmpty
  | c :: t => pat.isPrefixOf (c :: t) || strIncludesL pat t

/-- Model of `s.includes(pat)`. -/
def strIncludes (s pat : String) : Bool :=
  strIncludesL pat.data s.data

/-- Model of `s.startsWith(pat)`. -/
def strStartsWith (s pat : String) : Bool :=
  pat.data.isPrefixOf s.data

/-- Model of `s.endsWith(pat)`. -/
def strEndsWith (s pat : String) : Bool :=
  pat.data.isSuffixOf s.data

/-! ## JavaScript numbers and `Number(string)` conversion -/

/-- JavaScript number abstraction: NaN, signed infinities, or an exact
finite value. -/
inductive JSNum where
  | nan : JSNum
  | posInf : JSNum
  | negInf : JSNum
  | val (q : ℚ) : JSNum
deriving DecidableEq, Repr

/-- Model of the JS `isNaN` test on a number value. -/
def JSNum.isNaN : JSNum → Bool
  | .nan => true
  | _ => false

/-- Decimal digit test. -/
def isDigitCh (c : Char) : Bool :=
  48 ≤ c.toNat && c.toNat ≤ 57

/-- Digit value of a hexadecimal digit, 16 if not a hex digit. -/
def hexVal (c : Char) : Nat :=
  if 48 ≤ c.toNat && c.toNat ≤ 57 then c.toNat - 48
  else if 97 ≤ c.toNat && c.toNat ≤ 102 then c.toNat - 87
  else if 65 ≤ c.toNat && c.toNat ≤ 70 then c.toNat - 55
  else 16

/-- Numeric value of a digit string in a given radix. -/
def digitsToNat (radix : Nat) : List Char → Nat
  | [] => 0
  | c :: t => digitsToNat radix t + hexVal c * radix ^ t.length

/-- Ten to an integer power, as a rational. -/
def ratPow10 (e : Int) : ℚ :=
  if 0 ≤ e then ((10 : ℚ) ^ e.toNat) else 1 / (10 : ℚ) ^ (-e).toNat

/-- Radix-digit test for the non-decimal integer literals of `Number`. -/
def isRadixDigit (radix : Nat) (c : Char) : Bool :=
  hexVal c < radix

/-- Value of an ECMAScript `StrUnsignedDecimalLiteral`
(`Infinity`, `Digits . Digits? Exp?`, `. Digits Exp?`, `Digits Exp?`). -/
def parseUnsignedDec (t : List Char) : Option JSNum :=
  if t = "Infinity".data then some .posInf
  else
    let intPart := t.takeWhile isDigitCh
    let r1 := t.dropWhile isDigitCh
    match r1 with
    | '.' :: r2 =>
      let fracPart := r2.takeWhile isDigitCh
      let r3 := r2.dropWhile isDigitCh
      if intPart.isEmpty && fracPart.isEmpty then none
      else
        match parseExpPart r3 with
        | none => none
        | some e =>
          some (.val ((digitsToNat 10 (intPart ++ fracPart) : ℚ) *
            ratPow10 (e - fracPart.length)))
    | _ =>
      if intPart.isEmpty then none
      else
        match parseExpPart r1 with
        | none => none
        | some e => some (.val ((digitsToNat 10 intPart : ℚ) * ratPow10 e))
where
  /-- Exponent suffix: empty, or `e`/`E` with optional sign and digits. -/
  parseExpPart : List Char → Option Int
  | [] => some 0
  | c :: r =>
    if c == 'e' || c == 'E' then
      match r with
      | '+' :: ds => if ds ≠ [] && ds.all isDigitCh then some (digitsToNat 10 ds) else none
      | '-' :: ds => if ds ≠ [] && ds.all isDigitCh then some (-(digitsToNat 10 ds : Int)) else none
      | ds => if ds ≠ [] && ds.all isDigitCh then some (digitsToNat 10 ds) else none
    else none

/-- Negation on the JS number abstraction. -/
def JSNum.neg : JSNum → JSNum
  | .nan => .nan
  | .posInf => .negInf
  | .negInf => .posInf
  | .val q => .val (-q)

/-- Value of an ECMAScript `StrNumericLiteral`: a signed decimal literal or
an unsigned `0x`/`0o`/`0b` integer literal. -/
def parseStrNumericLiteral (t : List Char) : Option JSNum :=
  match t with
  | '0' :: c :: rest =>
    if c == 'x' || c == 'X' then parseRadixTail 16 rest
    else if c == 'o' || c == 'O' then parseRadixTail 8 rest
    else if c == 'b' || c == 'B' then parseRadixTail 2 rest
    else parseSignedDec t
  | _ => parseSignedDec t
where
  /-- Non-decimal digits after the radix prefix. -/
  parseRadixTail (radix : Nat) (ds : List Char) : Option JSNum :=
    if ds ≠ [] && ds.all (isRadixDigit radix) then
      some (.val (digitsToNat radix ds : ℚ))
    else none
  /-- Optional sign, then an unsigned decimal literal. -/
  parseSignedDec : List Char → Option JSNum
  | '+' :: r => parseUnsignedDec r
  | '-' :: r => (parseUnsignedDec r).map JSNum.neg
  | r => parseUnsignedDec r

/-- Model of the JS `Number(s)` conversion applied to a string: strip
whitespace, map the empty string to `+0`, otherwise interpret the whole
string as a `StrNumericLiteral`, yielding NaN when it is not one. -/
def jsStringToNumber (s : String) : JSNum :=
  let t := ((s.data.dropWhile isJsWs).reverse.dropWhile isJsWs).reverse
  if t.isEmpty then .val 0
  else
    match parseStrNumericLiteral t with
    | some n => n
    | none => .nan

/-! ## JSON values, `JSON.parse`, `JSON.stringify` -/

/-- JSON value tree as produced by `JSON.parse` (object fields kept in
source order). -/
inductive Json where
  | null : Json
  | bool (b : Bool) : Json
  | num (q : ℚ) : Json
  | str (s : String) : Json
  | arr (elems : List Json) : Json
  | obj (fields : List (String × Json)) : Json
deriving Repr

/-- JSON insignificant whitespace (space, tab, line feed, carriage return). -/
def isJsonWs (c : Char) : Bool :=
  c.toNat == 32 || c.toNat == 9 || c.toNat == 10 || c.toNat == 13

/-- Skip JSON whitespace. -/
def dropJsonWs (cs : List Char) : List Char :=
  cs.dropWhile isJsonWs

/-- Parse the body of a JSON string after the opening quote; returns the
decoded characters and the input after the closing quote.  Surrogate
halves written with `\u` escapes are collapsed to U+FFFD (the decoded
payload is never inspected by the solver, only parse success matters). -/
def parseJsonStringAux : List Char → Option (List Char × List Char)
  | [] => none
  | '"' :: rest => some ([], rest)
  | '\\' :: e :: rest =>
    if e == '"' || e == '\\' || e == '/' then
      (parseJsonStringAux rest).map fun p => (e :: p.1, p.2)
    else if e == 'b' then (parseJsonStringAux rest).map fun p => ('\x08' :: p.1, p.2)
    else if e == 'f' then (parseJsonStringAux rest).map fun p => ('\x0c' :: p.1, p.2)
    else if e == 'n' then (parseJsonStringAux rest).map fun p => ('\x0a' :: p.1, p.2)
    else if e == 'r' then (parseJsonStringAux rest).map fun p => ('\x0d' :: p.1, p.2)
    else if e == 't' then (parseJsonStringAux rest).map fun p => ('\x09' :: p.1, p.2)
    else if e == 'u' then
      match rest with
      | a :: b :: c :: d :: r =>
        if hexVal a < 16 && hexVal b < 16 && hexVal c < 16 && hexVal d < 16 then
          let n := ((hexVal a * 16 + hexVal b) * 16 + hexVal c) * 16 + hexVal d
          let ch := if n < 0xD800 || 0xDFFF < n then Char.ofNat n else '�'
          (parseJsonStringAux r).map fun p => (ch :: p.1, p.2)
        else none
      | _ => none
    else none
  | c :: rest =>
    if c.toNat < 32 then none
    else (parseJsonStringAux rest).map fun p => (c :: p.1, p.2)

/-- Parse a JSON number literal (`-? (0 | [1-9][0-9]*) frac? exp?`). -/
def parseJsonNumber (cs : List Char) : Option (ℚ × List Char) :=
  let signed : Bool × List Char :=
    match cs with
    | '-' :: r => (true, r)
    | _ => (false, cs)
  let cs1 := signed.2
  let intDigits := cs1.takeWhile isDigitCh
  let r1 := cs1.dropWhile isDigitCh
  if intDigits.isEmpty then none
  else if 1 < intDigits.length && intDigits.headD '0' == '0' then none
  else
    let fracAndRest : Option (List Char × List Char) :=
      match r1 with
      | '.' :: r2 =>
        let fd := r2.takeWhile isDigitCh
        if fd.isEmpty then none else some (fd, r2.dropWhile isDigitCh)
      | _ => some ([], r1)
    match fracAndRest with
    | none => none
    | some (frac, r3) =>
      let expAndRest : Option (Int × List Char) :=
        match r3 with
        | c :: r4 =>
          if c == 'e' || c == 'E' then
            match r4 with
            | '+' :: r5 =>
              let ds := r5.takeWhile isDigitCh
              if ds.isEmpty then none
              else some ((digitsToNat 10 ds : Int), r5.dropWhile isDigitCh)
            | '-' :: r5 =>
              let ds := r5.takeWhile isDigitCh
              if ds.isEmpty then none
              else some (-(digitsToNat 10 ds : Int), r5.dropWhile isDigitCh)
            | _ =>
              let ds := r4.takeWhile isDigitCh
              if ds.isEmpty then none
              else some ((digitsToNat 10 ds : Int), r4.dropWhile isDigitCh)
          else some (0, r3)
        | [] => some (0, r3)
      match expAndRest with
      | none => none
      | some (e, r6) =>
        let mag : ℚ := (digitsToNat 10 (intDigits ++ frac) : ℚ) *
          ratPow10 (e - frac.length)
        some (if signed.1 then -mag else mag, r6)

/-- Request tag for the fuel-indexed JSON parsing step. -/
inductive JReq where
  | val : JReq
  | arrItems : JReq
  | objItems : JReq

/-- Result payload for the fuel-indexed JSON parsing step. -/
inductive JRes where
  | v (j : Json) : JRes
  | vs (js : List Json) : JRes
  | fs (kvs : List (String × Json)) : JRes

/-- Recursive-descent JSON parsing step, structurally recursive on fuel.
With fuel at least twice the input length plus a constant the result
agrees with `JSON.parse` acceptance. -/
def jsonStep : Nat → JReq → List Char → Option (JRes × List Char)
  | 0, _, _ => none
  | Nat.succ fuel, .val, cs =>
    let cs0 := dropJsonWs cs
    match cs0 with
    | 't' :: 'r' :: 'u' :: 'e' :: r => some (.v (.bool true), r)
    | 'f' :: 'a' :: 'l' :: 's' :: 'e' :: r => some (.v (.bool false), r)
    | 'n' :: 'u' :: 'l' :: 'l' :: r => some (.v .null, r)
    | '"' :: r => (parseJsonStringAux r).map fun p => (.v (.str (String.mk p.1)), p.2)
    | '\x5b' :: r =>
      match dropJsonWs r with
      | '\x5d' :: r2 => some (.v (.arr []), r2)
      | _ =>
        match jsonStep fuel .arrItems r with
        | some (.vs js, r2) => some (.v (.arr js), r2)
        | _ => none
    | '\x7b' :: r =>
      match dropJsonWs r with
      | '\x7d' :: r2 => some (.v (.obj []), r2)
      | _ =>
        match jsonStep fuel .objItems r with
        | some (.fs kvs, r2) => some (.v (.obj kvs), r2)
        | _ => none
    | _ => (parseJsonNumber cs0).map fun p => (.v (.num p.1), p.2)
  | Nat.succ fuel, .arrItems, cs =>
    match jsonStep fuel .val cs with
    | some (.v j, r) =>
      (match dropJsonWs r with
      | ',' :: r2 =>
        match jsonStep fuel .arrItems r2 with
        | some (.vs js, r3) => some (.vs (j :: js), r3)
        | _ => none
      | '\x5d' :: r2 => some (.vs [j], r2)
      | _ => none)
    | _ => none
  | Nat.succ fuel, .objItems, cs =>
    match dropJsonWs cs with
    | '"' :: r =>
      match parseJsonStringAux r with
      | some (key, r1) =>
        (match dropJsonWs r1 with
        | ':' :: r3 =>
          match jsonStep fuel .val r3 with
          | some (.v j, r4) =>
            (match dropJsonWs r4 with
            | ',' :: r6 =>
              match jsonStep fuel .objItems r6 with
              | some (.fs kvs, r7) => some (.fs ((String.mk key, j) :: kvs), r7)
              | _ => none
            | '\x7d' :: r6 => some (.fs [(String.mk key, j)], r6)
            | _ => none)
          | _ => none
        | _ => none)
      | none => none
    | _ => none

/-- Model of `JSON.parse(s)`: `some` on success, `none` where the JS
function throws a `SyntaxError`. -/
def jsonParse (s : String) : Option Json :=
  match jsonStep (2 * s.data.length + 8) .val s.data with
  | some (.v j, rest) => if (dropJsonWs rest).isEmpty then some j else none
  | _ => none

/-- Escape one character for a JSON string literal. -/
def escapeJsonChar (c : Char) : List Char :=
  if c == '"' then ['\\', '"']
  else if c == '\\' then ['\\', '\\']
  else if c.toNat < 32 then
    let hexDigit : Nat → Char := fun n => if n < 10 then Char.ofNat (48 + n) else Char.ofNat (87 + n)
    ['\\', 'u', '0', '0', hexDigit (c.toNat / 16), hexDigit (c.toNat % 16)]
  else [c]

/-- Render a JSON string literal. -/
def quoteJson (s : String) : String :=
  String.mk ('"' :: (s.data.map escapeJsonChar).flatten ++ ['"'])

/-- Model of `JSON.stringify` (the source pretty-prints with a 2-space
indent; the layout whitespace is abstracted away here because the rendered
text is only ever embedded into a prompt handed to the external LLM
collaborator, which this development treats as an oracle). -/
def jsonStringify : Json → String
  | .null => "null"
  | .bool true => "true"
  | .bool false => "false"
  | .num q => toString q
  | .str s => quoteJson s
  | .arr js =>
    "\x5b" ++ String.intercalate "," (js.attach.map fun j => jsonStringify j.1) ++ "\x5d"
  | .obj fs =>
    "\x7b" ++ String.intercalate ","
      (fs.attach.map fun f => quoteJson f.1.1 ++ ":" ++ jsonStringify f.1.2) ++ "\x7d"
decreasing_by
  · have h := List.sizeOf_lt_of_mem j.2
    simp only [Json.arr.sizeOf_spec]
    omega
  · have h := List.sizeOf_lt_of_mem f.2
    obtain ⟨⟨a, b⟩, hf⟩ := f
    simp only [Json.obj.sizeOf_spec, Prod.mk.sizeOf_spec] at h ⊢
    omega

/-! ## Answer Normalizer (`parseAnswer`) -/

/-- Typed answer value: the tagged union the spec calls `AnswerValue`.  In
the JS source the variants are untagged runtime values; the tag records
which branch of `parseAnswer` produced the result. -/
inductive AnswerValue where
  | json (j : Json) : AnswerValue
  | bool (b : Bool) : AnswerValue
  | num (n : JSNum) : AnswerValue
  | dataUri (s : String) : AnswerValue
  | str (s : String) : AnswerValue
deriving Repr

/-- Bool-valued test for the Number variant. -/
def AnswerValue.isNumV : AnswerValue → Bool
  | .num _ => true
  | _ => false

/-- Model of `parseAnswer(rawAnswer)` from the quiz-solver source,
mirroring its control flow: trim, then bracket-bounded `JSON.parse` inside
a try/catch (a parse failure falls through), then the boolean, number and
`data:`-prefix checks, finally the trimmed string itself.  Every branch is
total: no step raises. -/
def parseAnswer (rawAnswer : String) : AnswerValue :=
  let trimmed := jsTrim rawAnswer
  let jsonRes : Option Json :=
    if (strStartsWith trimmed "\x7b" && strEndsWith trimmed "\x7d") ||
       (strStartsWith trimmed "\x5b" && strEndsWith trimmed "\x5d") then
      jsonParse trimmed
    else none
  match jsonRes with
  | some j => .json j
  | none =>
    if jsToLowerCase trimmed == "true" then .bool true
    else if jsToLowerCase trimmed == "false" then .bool false
    else
      let num := jsStringToNumber trimmed
      if !num.isNaN && !(trimmed == "") then .num num
      else if strStartsWith trimmed "data:" then .dataUri trimmed
      else .str trimmed

/-- Check 1 of the spec's precedence list: bounded by braces or brackets
and parses as structured data. -/
def checkJson (t : String) : Option AnswerValue :=
  if (strStartsWith t "\x7b" && strEndsWith t "\x7d") ||
     (strStartsWith t "\x5b" && strEndsWith t "\x5d") then
    (jsonParse t).map AnswerValue.json
  else none

/-- Check 2: case-insensitive equality with `true`/`false`. -/
def checkBool (t : String) : Option AnswerValue :=
  if jsToLowerCase t == "true" then some (.bool true)
  else if jsToLowerCase t == "false" then some (.bool false)
  else none

/-- Check 3: converts to a non-NaN number and is non-empty. -/
def checkNumber (t : String) : Option AnswerValue :=
  let num := jsStringToNumber t
  if !num.isNaN && !(t == "") then some (.num num) else none

/-- Check 4: literal `data:` prefix. -/
def checkDataUri (t : String) : Option AnswerValue :=
  if strStartsWith t "data:" then some (.dataUri t) else none

/-- First-match-wins evaluation of an ordered list of checks. -/
def runChecks : List (String → Option AnswerValue) → String → Option AnswerValue
  | [], _ => none
  | c :: cs, t =>
    match c t with
    | some v => some v
    | none => runChecks cs t

/-- The spec's fixed check order: JSON, Boolean, Number, DataURI. -/
def answerChecks : List (String → Option AnswerValue) :=
  [checkJson, checkBool, checkNumber, checkDataUri]

/-- Answer normalization as §4.4 of the spec words it: trim, attempt each
check in the fixed order on the trimmed string, first match wins, otherwise
the String variant of the trimmed text. -/
def normalizeSpec (s : String) : AnswerValue :=
  let t := jsTrim s
  (runChecks answerChecks t).getD (.str t)

/-- Decimal-notation predicate as the spec words it for the Number step:
an optional sign, then digits, with an optional fractional part — always a
finite value.  (Used to compare the spec wording against the code, which
accepts strictly more via JS `Number`.) -/
def specDecimalNumber (t : String) : Bool :=
  let body : List Char :=
    match t.data with
    | '+' :: r => r
    | '-' :: r => r
    | r => r
  match body with
  | [] => false
  | _ =>
    let ip := body.takeWhile isDigitCh
    let r1 := body.dropWhile isDigitCh
    !ip.isEmpty &&
      (match r1 with
       | [] => true
       | '.' :: fr => !fr.isEmpty && fr.all isDigitCh
       | _ => false)

/-! ## File Type Classifier (`detectFileType`) -/

/-- Content-category tag returned by the classifier. -/
inductive FType where
  | csv | excel | pdf | json | image | audio | video | text
deriving DecidableEq, Repr

/-- Model of `detectFileType(url, fileName)`: lower-case the space-joined
concatenation of URL and label and test the fixed substring patterns in
source order; no match yields `text`. -/
def detectFileType (url fileName : String) : FType :=
  let lower := jsToLowerCase (url ++ " " ++ fileName)
  if strIncludes lower ".csv" then .csv
  else if strIncludes lower ".xlsx" || strIncludes lower ".xls" then .excel
  else if strIncludes lower ".pdf" then .pdf
  else if strIncludes lower ".json" then .json
  else if strIncludes lower ".jpg" || strIncludes lower ".jpeg" ||
          strIncludes lower ".png" || strIncludes lower ".gif" ||
          strIncludes lower ".bmp" || strIncludes lower ".webp" then .image
  else if strIncludes lower ".mp3" || strIncludes lower ".wav" ||
          strIncludes lower ".ogg" || strIncludes lower ".m4a" then .audio
  else if strIncludes lower ".mp4" || strIncludes lower ".avi" ||
          strIncludes lower ".mov" || strIncludes lower ".mkv" then .video
  else .text

/-- The classifier's pattern table in source order, one row per pattern. -/
def fileTypeTable : List (String × FType) :=
  [(".csv", .csv), (".xlsx", .excel), (".xls", .excel), (".pdf", .pdf),
   (".json", .json), (".jpg", .image), (".jpeg", .image), (".png", .image),
   (".gif", .image), (".bmp", .image), (".webp", .image), (".mp3", .audio),
   (".wav", .audio), (".ogg", .audio), (".m4a", .audio), (".mp4", .video),
   (".avi", .video), (".mov", .video), (".mkv", .video)]

/-- First-match classification over the ordered pattern table, `text` when
no pattern is a substring. -/
def classifyTable (lower : String) : FType :=
  match fileTypeTable.find? (fun p => strIncludes lower p.1) with
  | some p => p.2
  | none => .text

/-! ## Single-Quiz Solver (`solveQuizQuestion`, `submitAnswer`, `solveSingleQuiz`) -/

/-- A file candidate extracted from the quiz page (`fileInfo.url`,
`fileInfo.text`). -/
structure FileInfo where
  url : String
  text : String
deriving DecidableEq, Repr

/-- Quiz page data produced by the renderer collaborator
(`extractQuizFromPage`). -/
structure QuizData where
  question : String
  content : String
  submitUrl : Option String
  files : List FileInfo

/-- Shape and payload of a prompt handed to the LLM collaborator: the
file-grounded prompt carries question, file label, rendered processed
content and page content; the context-only prompt carries question and
page content. -/
inductive PromptShape where
  | fileGrounded (question label rendered content : String) : PromptShape
  | contextOnly (question content : String) : PromptShape

/-- Observable event of one quiz attempt: a `downloadFile` call, an LLM
query (`askClaude`) with its prompt shape, or a submission POST. -/
inductive Event where
  | download (url : String) : Event
  | llm (p : PromptShape) : Event
  | post (submitUrl : Option String) : Event

/-- Grading-server submission result
(`{correct, url, reason}`). -/
structure SubmissionResult where
  correct : Bool
  url : Option String
  reason : Option String
deriving DecidableEq, Repr

/-- JSON body POSTed to the submission endpoint
(`{email, secret, url, answer}`). -/
structure Payload where
  email : String
  secret : String
  url : String
  answer : AnswerValue

/-- Outcome of the axios POST: success with a body, an HTTP error status
that still carries a response body (`error.response.data`), or a failure
with no response (network error / timeout). -/
inductive PostOutcome where
  | ok (data : SubmissionResult) : PostOutcome
  | httpError (data : SubmissionResult) : PostOutcome
  | netError (msg : String) : PostOutcome

/-- Behaviour of all external collaborators of one quiz attempt.  Each
field is an arbitrary function, so quantifying over `Env` quantifies over
every behaviour of the renderer, downloader, extractors, LLM client and
submission transport; an `Except.error` result models the collaborator
throwing. -/
structure Env where
  extractQuizFromPage : String → Except String QuizData
  downloadFile : String → Except String String
  procCSV : String → Except String Json
  procExcel : String → Except String Json
  procPDF : String → Except String Json
  procImage : String → Except String Json
  procAudio : String → Except String Json
  procVideo : String → Except String Json
  askClaude : PromptShape → Except String String
  post : Option String → Payload → PostOutcome

/-- Content-extraction dispatch of `solveQuizQuestion`: route the
downloaded bytes to the extractor selected by the classifier tag; `json`
is parsed in-line with `JSON.parse` (throwing on bad JSON), unrecognized
`text` decodes the bytes unmodified. -/
def dispatchProcess (env : Env) (ftype : FType) (fileData : String) : Except String Json :=
  match ftype with
  | .csv => env.procCSV fileData
  | .excel => env.procExcel fileData
  | .pdf => env.procPDF fileData
  | .image => env.procImage fileData
  | .audio => env.procAudio fileData
  | .video => env.procVideo fileData
  | .json =>
    match jsonParse fileData with
    | some j => .ok j
    | none => .error "Unexpected token in JSON"
  | .text => .ok (.str fileData)

/-- Download plus dispatch for one candidate file: the part of the per-file
try block that produces `processedData`. -/
def extractOutcome (env : Env) (f : FileInfo) : Except String Json :=
  match env.downloadFile f.url with
  | .error e => .error e
  | .ok fileData => dispatchProcess env (detectFileType f.url f.text) fileData

/-- Rendering of `processedData` into the prompt template:
`typeof processedData === 'object'` (objects, arrays and `null`) pretty-
prints with `JSON.stringify`, other values interpolate directly. -/
def renderProcessed : Json → String
  | .obj fs => jsonStringify (.obj fs)
  | .arr js => jsonStringify (.arr js)
  | .null => jsonStringify .null
  | .str s => s
  | .num q => toString q
  | .bool true => "true"
  | .bool false => "false"

/-- Body of one iteration of the per-file loop of `solveQuizQuestion`
(the inner try block): download, classify, dispatch, build the
file-grounded prompt, query the LLM once, normalize.  An `.error` result
is the exception the surrounding catch swallows before moving on. -/
def fileAttempt (env : Env) (question content : String) (f : FileInfo) :
    Except String AnswerValue × List Event :=
  match extractOutcome env f with
  | .error e => (.error e, [.download f.url])
  | .ok pd =>
    match env.askClaude (.fileGrounded question f.text (renderProcessed pd) content) with
    | .error e =>
      (.error e,
       [.download f.url, .llm (.fileGrounded question f.text (renderProcessed pd) content)])
    | .ok a =>
      (.ok (parseAnswer a),
       [.download f.url, .llm (.fileGrounded question f.text (renderProcessed pd) content)])

/-- The per-file loop of `solveQuizQuestion`: first attempt that does not
throw returns its normalized answer; a thrown attempt is caught and the
next candidate is tried; `none` when every candidate failed (or the list
is empty). -/
def solveFiles (env : Env) (question content : String) :
    List FileInfo → Option AnswerValue × List Event
  | [] => (none, [])
  | f :: rest =>
    match fileAttempt env question content f with
    | (.ok a, evs) => (some a, evs)
    | (.error _, evs) =>
      let r := solveFiles env question content rest
      (r.1, evs ++ r.2)

/-- Model of `solveQuizQuestion(quizData)`: run the candidate files in page
order; when none yields an answer, fall back to the context-only prompt.
A throw of the final direct LLM call is rethrown by the outer catch. -/
def solveQuizQuestion (env : Env) (qd : QuizData) :
    Except String AnswerValue × List Event :=
  match solveFiles env qd.question qd.content qd.files with
  | (some a, evs) => (.ok a, evs)
  | (none, evs) =>
    match env.askClaude (.contextOnly qd.question qd.content) with
    | .error e => (.error e, evs ++ [.llm (.contextOnly qd.question qd.content)])
    | .ok a => (.ok (parseAnswer a), evs ++ [.llm (.contextOnly qd.question qd.content)])

/-- Model of `submitAnswer(email, secret, quizUrl, answer, submitUrl)`:
POST the payload; a response body is returned as the result even on an
HTTP error status (`error.response.data`); only a failure with no
response is rethrown. -/
def submitAnswer (env : Env) (email secret quizUrl : String)
    (answer : AnswerValue) (submitUrl : Option String) :
    Except String SubmissionResult :=
  match env.post submitUrl { email := email, secret := secret, url := quizUrl, answer := answer } with
  | .ok d => .ok d
  | .httpError d => .ok d
  | .netError m => .error m

/-- Result record a quiz attempt hands to the orchestrator
(`{success, nextUrl, error}`). -/
structure SolveResult where
  success : Bool
  nextUrl : Option String
  error : Option String
deriving DecidableEq, Repr

/-- The try block of `solveSingleQuiz`: fetch the page, answer the
question, submit, and map the submission result into
`{success: correct, nextUrl: url, error: reason}`.  An `.error` is an
exception reaching the catch. -/
def solveSingleQuizBody (env : Env) (email secret quizUrl : String) :
    Except String SolveResult × List Event :=
  match env.extractQuizFromPage quizUrl with
  | .error e => (.error e, [])
  | .ok qd =>
    match solveQuizQuestion env qd with
    | (.error e, evs) => (.error e, evs)
    | (.ok answer, evs) =>
      match submitAnswer env email secret quizUrl answer qd.submitUrl with
      | .error e => (.error e, evs ++ [.post qd.submitUrl])
      | .ok d =>
        (.ok { success := d.correct, nextUrl := d.url, error := d.reason },
         evs ++ [.post qd.submitUrl])

/-- Model of `solveSingleQuiz`: the try block above wrapped in the
catch-all that converts any exception into
`{success: false, error: message}` — the function itself never throws. -/
def solveSingleQuiz (env : Env) (email secret quizUrl : String) :
    SolveResult × List Event :=
  match solveSingleQuizBody env email secret quizUrl with
  | (.ok r, evs) => (r, evs)
  | (.error m, evs) => ({ success := false, nextUrl := none, error := some m }, evs)

/-! ## Quiz-Chain Orchestrator (`solveMasterQuiz`) -/

/-- The `TIMEOUT_MS` constant of the source (170000 ms, i.e. a ~170-second
budget with a 10-second safety margin checked inside the loop). -/
def TIMEOUT_MS : Int := 170000

/-- Outcome of one orchestrated solver call as the orchestrator sees it:
either the solver returned a result record, or it threw. -/
inductive SolverOutcome where
  | ok (r : SolveResult) : SolverOutcome
  | thrown (msg : String) : SolverOutcome

/-- Behaviour of the world the orchestrator loop interacts with: the
wall clock (`Date.now()` sampled once at the top of iteration `i`) and the
solver it invokes (indexed by the 1-based attempt count and URL). -/
structure MasterEnv where
  now : Nat → Int
  solver : Nat → String → SolverOutcome

/-- Why the orchestrator loop ended. -/
inductive EndReason where
  | noUrl | attemptsExhausted | timeBudget | chainComplete | noNextUrl | caughtError
deriving DecidableEq, Repr

/-- Bool test for the catch branch of the orchestrator. -/
def EndReason.isCaughtError : EndReason → Bool
  | .caughtError => true
  | _ => false

/-- One recorded solver invocation: the 1-based attempt count, the URL it
was invoked on, and the remaining time budget computed for that
iteration. -/
structure Invocation where
  attempt : Nat
  url : String
  remaining : Int
deriving DecidableEq, Repr

/-- A finished orchestrator run: the solver invocations in order and the
reason the loop ended. -/
structure MasterRun where
  invocations : List Invocation
  endReason : EndReason
deriving DecidableEq, Repr

/-- JS truthiness of the `string|null` fields guarding the loop and the
next-URL advancement (`null`, `undefined` and the empty string are
falsy). -/
def jsTruthyOpt : Option String → Bool
  | none => false
  | some s => !(s == "")

/-- The `while (currentUrl && attemptCount < maxAttempts)` loop of
`solveMasterQuiz`.  `remAttempts` is `maxAttempts - attemptCount`, the
recursion measure the guard `attemptCount < maxAttempts` corresponds to;
`attemptCount` is the number of iterations already started.  Each
iteration increments the attempt count, re-checks the remaining wall-clock
budget against the 10-second margin (breaking without invoking the solver
when it is below), invokes the solver, and follows the source's
success/failure × next-URL cases; a throwing solver is caught and ends
the chain. -/
def masterGo (env : MasterEnv) (startTime : Int) :
    (remAttempts : Nat) → (attemptCount : Nat) → Option String → MasterRun
  | _, _, none => { invocations := [], endReason := .noUrl }
  | remAttempts, attemptCount, some url =>
    if url == "" then { invocations := [], endReason := .noUrl }
    else
      match remAttempts with
      | 0 => { invocations := [], endReason := .attemptsExhausted }
      | remA + 1 =>
        let ac := attemptCount + 1
        let remaining := TIMEOUT_MS - (env.now attemptCount - startTime)
        if remaining < 10000 then { invocations := [], endReason := .timeBudget }
        else
          let inv : Invocation := { attempt := ac, url := url, remaining := remaining }
          match env.solver ac url with
          | .thrown _ => { invocations := [inv], endReason := .caughtError }
          | .ok r =>
            if r.success then
              if jsTruthyOpt r.nextUrl then
                let rest := masterGo env startTime remA ac r.nextUrl
                { invocations := inv :: rest.invocations, endReason := rest.endReason }
              else { invocations := [inv], endReason := .chainComplete }
            else
              if jsTruthyOpt r.nextUrl then
                let rest := masterGo env startTime remA ac r.nextUrl
                { invocations := inv :: rest.invocations, endReason := rest.endReason }
              else { invocations := [inv], endReason := .noNextUrl }

/-- Model of `solveMasterQuiz(email, secret, initialUrl, startTime)`: the
loop with the hardcoded `maxAttempts = 50` cap, starting from attempt
count 0 and the initial URL. -/
def solveMasterQuiz (env : MasterEnv) (initialUrl : String) (startTime : Int) : MasterRun :=
  masterGo env startTime 50 0 (some initialUrl)

/-! ## Claim C1 -/

/-- C1: for every raw completion string, the Answer Normalizer trims it and
applies its checks in the fixed order JSON → Boolean → Number → DataURI →
String with first match winning (formalised as: `parseAnswer` coincides
with the first-match cascade `normalizeSpec` over the ordered check list;
every function involved is total, so no step raises), and the bracketed
string `"{not json"` is not classified as JSONValue but ends as the String
variant. -/
theorem parseAnswer_fixed_order_first_match :
    (∀ s : String, parseAnswer s = normalizeSpec s) ∧
    parseAnswer "\x7bnot json" = AnswerValue.str "\x7bnot json" := by
  constructor
  · intro s
    have hcj : checkJson (jsTrim s) =
        (if (strStartsWith (jsTrim s) "\x7b" && strEndsWith (jsTrim s) "\x7d") ||
            (strStartsWith (jsTrim s) "\x5b" && strEndsWith (jsTrim s) "\x5d") then
          jsonParse (jsTrim s) else none).map AnswerValue.json := by
      unfold checkJson
      split <;> simp_all
    unfold parseAnswer normalizeSpec answerChecks
    simp only [runChecks, checkBool, checkNumber, checkDataUri, hcj]
    cases hj : (if (strStartsWith (jsTrim s) "\x7b" && strEndsWith (jsTrim s) "\x7d") ||
        (strStartsWith (jsTrim s) "\x5b" && strEndsWith (jsTrim s) "\x5d") then
      jsonParse (jsTrim s) else none) with
    | some j => simp
    | none =>
      simp only [Option.map_none]
      by_cases h1 : (jsToLowerCase (jsTrim s) == "true") = true
      · simp [h1]
      · simp only [Bool.not_eq_true] at h1
        simp only [h1]
        by_cases h2 : (jsToLowerCase (jsTrim s) == "false") = true
        · simp [h2]
        · simp only [Bool.not_eq_true] at h2
          simp only [h2]
          by_cases h3 : (!(jsStringToNumber (jsTrim s)).isNaN && !(jsTrim s == "")) = true
          · simp [h3]
          · simp only [Bool.not_eq_true] at h3
            simp only [h3]
            by_cases h4 : strStartsWith (jsTrim s) "data:" = true
            · simp [h4]
            · simp only [Bool.not_eq_true] at h4
              simp [h4]
  · with_unfolding_all rfl

/-! ## Claim C2 -/

/-- C2 counterexample: the claim asserts
`classify("http://x/file", "Download PDF here")` returns `pdf`, but the
pattern table only matches dotted extension substrings, and the lowered
input contains no `.pdf`, so the classifier returns `text`, not `pdf`. -/
theorem detectFileType_keyword_label_yields_text :
    (detectFileType "http://x/file" "Download PDF here" == FType.pdf) = false ∧
    detectFileType "http://x/file" "Download PDF here" = FType.text := by
  constructor <;> with_unfolding_all rfl

/-- C2 (amended): the File Type Classifier is a pure total function of the
lower-cased space-joined concatenation of URL and label, matched by
substring against the fixed ordered pattern table with first match winning
and no match yielding `text`; `classify("http://x/report.CSV", "")` is
`csv` (case-insensitive), while
`classify("http://x/file", "Download PDF here")` contains no dotted
extension pattern and is classified `text`. -/
theorem detectFileType_table_first_match :
    (∀ url label : String,
      detectFileType url label = classifyTable (jsToLowerCase (url ++ " " ++ label))) ∧
    detectFileType "http://x/report.CSV" "" = FType.csv ∧
    detectFileType "http://x/file" "Download PDF here" = FType.text := by
  refine ⟨?_, by with_unfolding_all rfl, by with_unfolding_all rfl⟩
  intro url label
  unfold detectFileType classifyTable fileTypeTable
  set l := jsToLowerCase (url ++ " " ++ label) with hl
  by_cases h01 : strIncludes l ".csv" = true
  · simp [List.find?, h01]
  · simp only [Bool.not_eq_true] at h01
    by_cases h02 : strIncludes l ".xlsx" = true
    · simp [List.find?, h01, h02]
    · simp only [Bool.not_eq_true] at h02
      by_cases h03 : strIncludes l ".xls" = true
      · simp [List.find?, h01, h02, h03]
      · simp only [Bool.not_eq_true] at h03
        by_cases h04 : strIncludes l ".pdf" = true
        · simp [List.find?, h01, h02, h03, h04]
        · simp only [Bool.not_eq_true] at h04
          by_cases h05 : strIncludes l ".json" = true
          · simp [List.find?, h01, h02, h03, h04, h05]
          · simp only [Bool.not_eq_true] at h05
            by_cases h06 : strIncludes l ".jpg" = true
            · simp [List.find?, h01, h02, h03, h04, h05, h06]
            · simp only [Bool.not_eq_true] at h06
              by_cases h07 : strIncludes l ".jpeg" = true
              · simp [List.find?, h01, h02, h03, h04, h05, h06, h07]
              · simp only [Bool.not_eq_true] at h07
                by_cases h08 : strIncludes l ".png" = true
                · simp [List.find?, h01, h02, h03, h04, h05, h06, h07, h08]
                · simp only [Bool.not_eq_true] at h08
                  by_cases h09 : strIncludes l ".gif" = true
                  · simp [List.find?, h01, h02, h03, h04, h05, h06, h07, h08, h09]
                  · simp only [Bool.not_eq_true] at h09
                    by_cases h10 : strIncludes l ".bmp" = true
                    · simp [List.find?, h01, h02, h03, h04, h05, h06, h07, h08, h09, h10]
                    · simp only [Bool.not_eq_true] at h10
                      by_cases h11 : strIncludes l ".webp" = true
                      · simp [List.find?, h01, h02, h03, h04, h05, h06, h07, h08, h09, h10, h11]
                      · simp only [Bool.not_eq_true] at h11
                        by_cases h12 : strIncludes l ".mp3" = true
                        · simp [List.find?, h01, h02, h03, h04, h05, h06, h07, h08, h09, h10, h11,
                            h12]
                        · simp only [Bool.not_eq_true] at h12
                          by_cases h13 : strIncludes l ".wav" = true
                          · simp [List.find?, h01, h02, h03, h04, h05, h06, h07, h08, h09, h10,
                              h11, h12, h13]
                          · simp only [Bool.not_eq_true] at h13
                            by_cases h14 : strIncludes l ".ogg" = true
                            · simp [List.find?, h01, h02, h03, h04, h05, h06, h07, h08, h09, h10,
                                h11, h12, h13, h14]
                            · simp only [Bool.not_eq_true] at h14
                              by_cases h15 : strIncludes l ".m4a" = true
                              · simp [List.find?, h01, h02, h03, h04, h05, h06, h07, h08, h09,
                                  h10, h11, h12, h13, h14, h15]
                              · simp only [Bool.not_eq_true] at h15
                                by_cases h16 : strIncludes l ".mp4" = true
                                · simp [List.find?, h01, h02, h03, h04, h05, h06, h07, h08, h09,
                                    h10, h11, h12, h13, h14, h15, h16]
                                · simp only [Bool.not_eq_true] at h16
                                  by_cases h17 : strIncludes l ".avi" = true
                                  · simp [List.find?, h01, h02, h03, h04, h05, h06, h07, h08,
                                      h09, h10, h11, h12, h13, h14, h15, h16, h17]
                                  · simp only [Bool.not_eq_true] at h17
                                    by_cases h18 : strIncludes l ".mov" = true
                                    · simp [List.find?, h01, h02, h03, h04, h05, h06, h07, h08,
                                        h09, h10, h11, h12, h13, h14, h15, h16, h17, h18]
                                    · simp only [Bool.not_eq_true] at h18
                                      by_cases h19 : strIncludes l ".mkv" = true
                                      · simp [List.find?, h01, h02, h03, h04, h05, h06, h07,
                                          h08, h09, h10, h11, h12, h13, h14, h15, h16, h17,
                                          h18, h19]
                                      · simp only [Bool.not_eq_true] at h19
                                        simp [List.find?, h01, h02, h03, h04, h05, h06, h07,
                                          h08, h09, h10, h11, h12, h13, h14, h15, h16, h17,
                                          h18, h19]

/-! ## Claim C3 -/

/-- C3 counterexample: the claim restricts the Number variant to strings in
finite decimal notation, but the code classifies by JS `Number` conversion:
`"Infinity"` is neither finite nor decimal notation, yet `parseAnswer`
returns the Number variant (with value +∞) for it. -/
theorem parseAnswer_infinity_is_number_variant :
    parseAnswer "Infinity" = AnswerValue.num JSNum.posInf ∧
    specDecimalNumber (jsTrim "Infinity") = false := by
  constructor <;> with_unfolding_all rfl

/-- C3 (amended): for every input on which the JSON and Boolean checks did
not match, the Answer Normalizer yields the Number variant exactly when the
trimmed string is non-empty and JS `Number` conversion yields a non-NaN
value — a strictly larger set than finite plain-decimal notation, since it
also admits `Infinity`, hex/octal/binary and exponent forms; the inputs
`"42"`, `"3.14"` and `"-7"` yield Number. -/
theorem parseAnswer_number_variant_condition :
    (∀ s : String,
      (parseAnswer s).isNumV =
        (!(checkJson (jsTrim s)).isSome && (!(checkBool (jsTrim s)).isSome &&
         (!(jsStringToNumber (jsTrim s)).isNaN && !(jsTrim s == ""))))) ∧
    parseAnswer "42" = AnswerValue.num (.val 42) ∧
    parseAnswer "3.14" = AnswerValue.num (.val (157/50)) ∧
    parseAnswer "-7" = AnswerValue.num (.val (-7)) := by
  refine ⟨?_, by with_unfolding_all rfl, by with_unfolding_all rfl, by with_unfolding_all rfl⟩
  intro s
  have hcj : checkJson (jsTrim s) =
      (if (strStartsWith (jsTrim s) "\x7b" && strEndsWith (jsTrim s) "\x7d") ||
          (strStartsWith (jsTrim s) "\x5b" && strEndsWith (jsTrim s) "\x5d") then
        jsonParse (jsTrim s) else none).map AnswerValue.json := by
    unfold checkJson
    split <;> simp_all
  unfold parseAnswer
  simp only [hcj, checkBool]
  cases hj : (if (strStartsWith (jsTrim s) "\x7b" && strEndsWith (jsTrim s) "\x7d") ||
      (strStartsWith (jsTrim s) "\x5b" && strEndsWith (jsTrim s) "\x5d") then
    jsonParse (jsTrim s) else none) with
  | some j => simp [AnswerValue.isNumV]
  | none =>
    simp only [Option.map_none, Option.isSome_none, Bool.not_false, Bool.true_and]
    by_cases h1 : (jsToLowerCase (jsTrim s) == "true") = true
    · simp [h1, AnswerValue.isNumV]
    · simp only [Bool.not_eq_true] at h1
      simp only [h1]
      by_cases h2 : (jsToLowerCase (jsTrim s) == "false") = true
      · simp [h2, AnswerValue.isNumV]
      · simp only [Bool.not_eq_true] at h2
        simp only [h2]
        by_cases h3 : (!(jsStringToNumber (jsTrim s)).isNaN && !(jsTrim s == "")) = true
        · simp [h3, AnswerValue.isNumV]
        · simp only [Bool.not_eq_true] at h3
          simp only [h3]
          by_cases h4 : strStartsWith (jsTrim s) "data:" = true
          · simp [h4, h3, AnswerValue.isNumV]
          · simp only [Bool.not_eq_true] at h4
            simp [h4, h3, AnswerValue.isNumV]

/-! ## Claim C5 -/

/-- Solver stub for the C5 scenario: always succeeds and always offers a
next URL; the clock never advances past the start time. -/
def envC5 : MasterEnv :=
  { now := fun _ => 0,
    solver := fun _ _ =>
      .ok { success := true, nextUrl := some "https://quiz/next", error := none } }

/-- C5: the orchestrator loop continues only while the current URL is
truthy and the attempt count is below the maximum-attempt cap, so the
number of solver invocations is bounded by the remaining attempt budget
for every environment (in particular the loop terminates for every solver
behaviour; `solveMasterQuiz` instantiates the budget with the hardcoded
cap 50); with a 3-attempt budget and a solver stub that always returns
success with a next URL while the deadline is far away, the solver is
invoked exactly 3 times and the loop then stops with the attempt cap
exhausted. -/
theorem masterGo_attempt_cap_bound :
    (∀ (env : MasterEnv) (startTime : Int) (rem ac : Nat) (url : Option String),
      (masterGo env startTime rem ac url).invocations.length ≤ rem) ∧
    (masterGo envC5 0 3 0 (some "https://quiz/1")).invocations.length = 3 ∧
    (masterGo envC5 0 3 0 (some "https://quiz/1")).endReason = EndReason.attemptsExhausted := by
  refine ⟨?_, by with_unfolding_all rfl, by with_unfolding_all rfl⟩
  intro env st rem
  induction rem with
  | zero =>
    intro ac url
    cases url with
    | none => simp [masterGo]
    | some u =>
      simp only [masterGo]
      split <;> simp
  | succ remA ih =>
    intro ac url
    cases url with
    | none => simp [masterGo]
    | some u =>
      simp only [masterGo]
      split
      · simp
      · split
        · simp
        · split
          · simp
          · rename_i r hr
            split
            · split
              · have h := ih (ac + 1) r.nextUrl
                simp
                omega
              · simp
            · split
              · have h := ih (ac + 1) r.nextUrl
                simp
                omega
              · simp

/-! ## Claim C6 -/

/-- Clock stub for the C6 scenario: the wall clock already reads 200000 ms
past a start time of 0, so the remaining budget is negative before the
first iteration. -/
def envC6 : MasterEnv :=
  { now := fun _ => 200000,
    solver := fun _ _ =>
      .ok { success := true, nextUrl := some "https://quiz/next", error := none } }

/-- C6: at the start of every iteration the orchestrator re-checks the
remaining wall-clock budget against the 10-second margin, so every
recorded solver invocation happened with at least 10000 ms remaining; and
with a deadline already exceeded before the first iteration, zero solver
invocations occur and the loop ends with the `timeBudget` reason — an
expected terminal condition, not the error/catch branch. -/
theorem masterGo_budget_margin_guard :
    (∀ (env : MasterEnv) (startTime : Int) (rem ac : Nat) (url : Option String),
      ((masterGo env startTime rem ac url).invocations.all
        fun inv => decide (10000 ≤ inv.remaining)) = true) ∧
    (masterGo envC6 0 50 0 (some "https://quiz/1")).invocations = [] ∧
    (masterGo envC6 0 50 0 (some "https://quiz/1")).endReason = EndReason.timeBudget := by
  refine ⟨?_, by with_unfolding_all rfl, by with_unfolding_all rfl⟩
  intro env st rem
  induction rem with
  | zero =>
    intro ac url
    cases url with
    | none => simp [masterGo]
    | some u =>
      simp only [masterGo]
      split <;> simp
  | succ remA ih =>
    intro ac url
    cases url with
    | none => simp [masterGo]
    | some u =>
      simp only [masterGo]
      split
      · simp
      · split
        · simp
        · rename_i hu htime
          split
          · simp
            omega
          · rename_i r hr
            split
            · split
              · have h := ih (ac + 1) r.nextUrl
                simp [h]
                omega
              · simp
                omega
            · split
              · have h := ih (ac + 1) r.nextUrl
                simp [h]
                omega
              · simp
                omega

/-! ## Claim C7 -/

/-- Solver stub for the C7 counterexample: the attempt fails but its result
still carries a next URL — the empty string, which is a `string` (non-null)
value of the `SubmissionResult.url` field. -/
def envC7 : MasterEnv :=
  { now := fun _ => 0,
    solver := fun _ _ =>
      .ok { success := false, nextUrl := some "", error := some "wrong answer" } }

/-- C7 counterexample: the claim says an attempt that fails while carrying
a next URL makes the orchestrator advance and continue, but the source
guards the advance with JS truthiness: a carried-but-empty next URL
(`url: ""`, a non-null string) ends the chain after a single invocation
instead of advancing. -/
theorem masterGo_empty_next_url_stops :
    envC7.solver 1 "https://quiz/1" =
      .ok { success := false, nextUrl := some "", error := some "wrong answer" } ∧
    (masterGo envC7 0 50 0 (some "https://quiz/1")).invocations.length = 1 ∧
    (masterGo envC7 0 50 0 (some "https://quiz/1")).endReason = EndReason.noNextUrl := by
  refine ⟨rfl, by with_unfolding_all rfl, by with_unfolding_all rfl⟩

/-- C7 (amended): when a solver attempt fails but its result carries a
truthy (non-null, non-empty) next URL, the orchestrator advances the
current URL to it and continues the chain (skip-on-failure); when the
attempt fails with a falsy next URL (null or the empty string), the chain
stops with the `noNextUrl` reason. -/
theorem masterGo_skip_on_failure :
    ∀ (env : MasterEnv) (startTime : Int) (remA ac : Nat) (url : String)
      (r : SolveResult),
      (url == "") = false →
      ¬(TIMEOUT_MS - (env.now ac - startTime) < 10000) →
      env.solver (ac + 1) url = .ok r →
      r.success = false →
      ((jsTruthyOpt r.nextUrl = true →
        masterGo env startTime (remA + 1) ac (some url) =
          { invocations :=
              { attempt := ac + 1, url := url,
                remaining := TIMEOUT_MS - (env.now ac - startTime) } ::
                (masterGo env startTime remA (ac + 1) r.nextUrl).invocations,
            endReason := (masterGo env startTime remA (ac + 1) r.nextUrl).endReason }) ∧
       (jsTruthyOpt r.nextUrl = false →
        masterGo env startTime (remA + 1) ac (some url) =
          { invocations :=
              [{ attempt := ac + 1, url := url,
                 remaining := TIMEOUT_MS - (env.now ac - startTime) }],
            endReason := .noNextUrl })) := by
  intro env st remA ac url r hu htime hs hfail
  constructor
  · intro htruthy
    simp only [masterGo, hu, Bool.false_eq_true, if_false, htime, hs, hfail, htruthy]
    try simp
  · intro hfalsy
    simp only [masterGo, hu, Bool.false_eq_true, if_false, htime, hs, hfail, hfalsy]
    try simp

/-- Solver stub for the C7 witness: attempt 1 fails with next URL
`https://quiz/2`; every later attempt fails with no next URL. -/
def envC7w : MasterEnv :=
  { now := fun _ => 0,
    solver := fun n _ =>
      if n == 1 then .ok { success := false, nextUrl := some "https://quiz/2", error := some "wrong" }
      else .ok { success := false, nextUrl := none, error := some "wrong again" } }

/-- C7 witness: concrete run exercising the skip-on-failure step — the
failed first attempt advances to its non-empty next URL, the failed second
attempt has none and stops the chain. -/
theorem masterGo_skip_on_failure_witness :
    masterGo envC7w 0 (49 + 1) 0 (some "https://quiz/1") =
      { invocations :=
          [{ attempt := 1, url := "https://quiz/1", remaining := 170000 },
           { attempt := 2, url := "https://quiz/2", remaining := 170000 }],
        endReason := .noNextUrl } := by
  have h := masterGo_skip_on_failure envC7w 0 49 0 "https://quiz/1"
    { success := false, nextUrl := some "https://quiz/2", error := some "wrong" }
    (by with_unfolding_all rfl) (by norm_num [TIMEOUT_MS, envC7w])
    (by with_unfolding_all rfl) rfl
  rw [h.1 (by with_unfolding_all rfl)]
  with_unfolding_all rfl

/-! ## Claim C10 -/

/-- C10: `solveSingleQuiz` is total at its interface — whatever the
collaborators do (including throwing, modelled by any `Env`), the
function returns a result record, mapping any exception of its body into
`{success: false, error: message}`; consequently an orchestrator whose
solver is `solveSingleQuiz` never ends in the catch branch
(`caughtError`), for every environment, clock, budget and URL. -/
theorem solveSingleQuiz_total_no_catch :
    (∀ (env : Env) (email secret quizUrl m : String),
      (solveSingleQuizBody env email secret quizUrl).1 = .error m →
      (solveSingleQuiz env email secret quizUrl).1 =
        { success := false, nextUrl := none, error := some m }) ∧
    (∀ (env : Env) (clock : Nat → Int) (email secret : String) (startTime : Int)
        (rem ac : Nat) (url : Option String),
      ((masterGo
          { now := clock,
            solver := fun _ u => .ok (solveSingleQuiz env email secret u).1 }
          startTime rem ac url).endReason.isCaughtError) = false) := by
  constructor
  · intro env email secret quizUrl m h
    unfold solveSingleQuiz
    cases hb : solveSingleQuizBody env email secret quizUrl with
    | mk res evs =>
      rw [hb] at h
      simp at h
      cases res with
      | ok r => simp at h
      | error e =>
        simp at h
        simp [h]
  · intro env clock email secret st rem
    induction rem with
    | zero =>
      intro ac url
      cases url with
      | none => simp [masterGo, EndReason.isCaughtError]
      | some u =>
        simp only [masterGo]
        split <;> simp [EndReason.isCaughtError]
    | succ remA ih =>
      intro ac url
      cases url with
      | none => simp [masterGo, EndReason.isCaughtError]
      | some u =>
        simp only [masterGo]
        split
        · simp [EndReason.isCaughtError]
        · split
          · simp [EndReason.isCaughtError]
          · split
            · split
              · simpa using ih (ac + 1) ((solveSingleQuiz env email secret u).1.nextUrl)
              · simp [EndReason.isCaughtError]
            · split
              · simpa using ih (ac + 1) ((solveSingleQuiz env email secret u).1.nextUrl)
              · simp [EndReason.isCaughtError]

/-- Environment for the C10 witness: the renderer collaborator throws, so
the body of `solveSingleQuiz` resolves to an exception, which the
catch-all converts into a failure record. -/
def envC10 : Env :=
  { extractQuizFromPage := fun _ => .error "render failed",
    downloadFile := fun _ => .error "unused",
    procCSV := fun _ => .error "unused",
    procExcel := fun _ => .error "unused",
    procPDF := fun _ => .error "unused",
    procImage := fun _ => .error "unused",
    procAudio := fun _ => .error "unused",
    procVideo := fun _ => .error "unused",
    askClaude := fun _ => .error "unused",
    post := fun _ _ => .netError "unused" }

/-- C10 witness: with a throwing renderer the attempt body errors and
`solveSingleQuiz` returns the failure record instead of throwing. -/
theorem solveSingleQuiz_total_no_catch_witness :
    (solveSingleQuiz envC10 "a@b.c" "s3cret" "https://quiz/1").1 =
      { success := false, nextUrl := none, error := some "render failed" } :=
  solveSingleQuiz_total_no_catch.1 envC10 "a@b.c" "s3cret" "https://quiz/1"
    "render failed" (by with_unfolding_all rfl)

/-! ## Trace helpers for the solver claims -/

/-- Number of LLM queries recorded in a trace. -/
def countLlm : List Event → Nat
  | [] => 0
  | .llm _ :: t => countLlm t + 1
  | _ :: t => countLlm t

/-- Whether a trace records a download of the given URL. -/
def hasDownload (evs : List Event) (url : String) : Bool :=
  evs.any fun e =>
    match e with
    | .download u => u == url
    | _ => false

/-- Whether a trace records an LLM query with the context-only prompt. -/
def hasContextPrompt (evs : List Event) : Bool :=
  evs.any fun e =>
    match e with
    | .llm (.contextOnly _ _) => true
    | _ => false

/-- The answer component of the per-file loop is `none` exactly when every
candidate file's whole attempt (download, dispatch and LLM query) threw. -/
theorem solveFiles_none_iff_all_fail (env : Env) (q c : String) :
    ∀ fs : List FileInfo,
      (solveFiles env q c fs).1.isNone =
        fs.all fun f => !(fileAttempt env q c f).1.isOk := by
  intro fs
  induction fs with
  | nil => simp [solveFiles]
  | cons f rest ih =>
    cases hf : fileAttempt env q c f with
    | mk res evs =>
      cases res with
      | ok a =>
        simp only [solveFiles, hf, List.all_cons]
        simp [Except.isOk, Except.toBool]
      | error e =>
        simp only [solveFiles, hf, List.all_cons]
        simp [Except.isOk, Except.toBool, ih]

/-- The per-file loop never emits a context-only prompt: its LLM events are
all file-grounded. -/
theorem solveFiles_no_context_prompt (env : Env) (q c : String) :
    ∀ fs : List FileInfo, hasContextPrompt (solveFiles env q c fs).2 = false := by
  intro fs
  induction fs with
  | nil => simp [solveFiles, hasContextPrompt]
  | cons f rest ih =>
    have hatt : hasContextPrompt (fileAttempt env q c f).2 = false := by
      unfold fileAttempt
      cases hx : extractOutcome env f with
      | error e => simp [hasContextPrompt]
      | ok pd =>
        cases ha : env.askClaude (.fileGrounded q f.text (renderProcessed pd) c) with
        | error e => simp [hasContextPrompt, ha]
        | ok a => simp [hasContextPrompt, ha]
    cases hf : fileAttempt env q c f with
    | mk res evs =>
      rw [hf] at hatt
      cases res with
      | ok a => simpa [solveFiles, hf] using hatt
      | error e =>
        simp only [solveFiles, hf]
        simp only [hasContextPrompt, List.any_append] at hatt ih ⊢
        simp [hatt, ih]

/-! ## Claim C4 -/

/-- File candidates for the C4 scenarios. -/
def fileC4a : FileInfo := { url := "http://x/f0.txt", text := "f0" }

/-- Second file candidate for the C4 counterexample. -/
def fileC4b : FileInfo := { url := "http://x/f1.txt", text := "f1" }

/-- Quiz page for the C4 counterexample: two candidate files. -/
def qdC4 : QuizData :=
  { question := "Q", content := "C", submitUrl := some "http://x/submit",
    files := [fileC4a, fileC4b] }

/-- Environment for the C4 counterexample: every download succeeds (both
files classify as `text`, so extraction succeeds without an extractor
collaborator), but the LLM throws on the first file's prompt and answers
`42` on the second file's prompt. -/
def envC4 : Env :=
  { extractQuizFromPage := fun _ => .error "unused",
    downloadFile := fun _ => .ok "DATA",
    procCSV := fun _ => .error "unused",
    procExcel := fun _ => .error "unused",
    procPDF := fun _ => .error "unused",
    procImage := fun _ => .error "unused",
    procAudio := fun _ => .error "unused",
    procVideo := fun _ => .error "unused",
    askClaude := fun p =>
      match p with
      | .fileGrounded _ label _ _ =>
        if label == "f0" then .error "LLM unavailable" else .ok "42"
      | .contextOnly _ _ => .ok "ctx",
    post := fun _ _ => .netError "unused" }

/-- C4 counterexample: the first file yields non-error ProcessedContent
(its extraction succeeds), yet iteration does not stop there — because the
per-file catch also swallows a throw of the LLM query, the second file is
downloaded and the LLM is queried twice, contradicting the claim that
subsequent files are never tried once extraction succeeds. -/
theorem solveQuizQuestion_tries_next_file_after_llm_throw :
    (extractOutcome envC4 fileC4a).isOk = true ∧
    countLlm (solveQuizQuestion envC4 qdC4).2 = 2 ∧
    hasDownload (solveQuizQuestion envC4 qdC4).2 "http://x/f1.txt" = true ∧
    (solveQuizQuestion envC4 qdC4).1 = .ok (AnswerValue.num (.val 42)) := by
  refine ⟨?_, ?_, ?_, ?_⟩ <;> with_unfolding_all rfl

/-- C4 (amended): the Single-Quiz Solver iterates the candidate files in
page order and stops at the first file whose whole attempt succeeds —
extraction yields non-error ProcessedContent AND the subsequent single LLM
query does not throw; for that file one file-grounded prompt is built, the
LLM is queried exactly once and its answer normalized, and no later file
contributes any event.  (If the LLM query for a successfully extracted
file throws, the per-file catch treats it like an extraction failure and
iteration continues.) -/
theorem solveFiles_first_success_wins :
    ∀ (env : Env) (question content : String) (pre post : List FileInfo)
      (f : FileInfo) (a : AnswerValue) (evs : List Event),
      (∀ g ∈ pre, (fileAttempt env question content g).1.isOk = false) →
      fileAttempt env question content f = (.ok a, evs) →
      solveFiles env question content (pre ++ f :: post) =
        (some a,
          ((pre.map fun g => (fileAttempt env question content g).2).flatten ++ evs)) ∧
      countLlm evs = 1 := by
  intro env q c pre
  induction pre with
  | nil =>
    intro post f a evs h hf
    constructor
    · simp [solveFiles, hf]
    · unfold fileAttempt at hf
      cases hx : extractOutcome env f with
      | error e =>
        simp only [hx] at hf
        simp at hf
      | ok pd =>
        simp only [hx] at hf
        cases ha : env.askClaude (.fileGrounded q f.text (renderProcessed pd) c) with
        | error e =>
          simp only [ha] at hf
          simp at hf
        | ok s =>
          simp only [ha, Prod.mk.injEq] at hf
          rw [← hf.2]
          simp [countLlm]
  | cons g pre ih =>
    intro post f a evs h hf
    have hg : (fileAttempt env q c g).1.isOk = false := h g (by simp)
    have hpre : ∀ x ∈ pre, (fileAttempt env q c x).1.isOk = false :=
      fun x hx => h x (by simp [hx])
    have hrec := ih post f a evs hpre hf
    refine ⟨?_, hrec.2⟩
    cases hga : fileAttempt env q c g with
    | mk res evsg =>
      cases res with
      | ok b =>
        rw [hga] at hg
        simp [Except.isOk, Except.toBool] at hg
      | error e =>
        simp only [List.cons_append, solveFiles, hga]
        simp [hga, hrec.1, List.append_assoc]

/-- First candidate for the C4 witness: its download fails. -/
def fileC4g : FileInfo := { url := "http://x/g0.txt", text := "g0" }

/-- Third candidate for the C4 witness: never reached. -/
def fileC4h : FileInfo := { url := "http://x/h2.txt", text := "h2" }

/-- Environment for the C4 witness: the first file's download throws, the
second succeeds end to end, the LLM answers `42`. -/
def envC4w : Env :=
  { extractQuizFromPage := fun _ => .error "unused",
    downloadFile := fun u =>
      if u == "http://x/g0.txt" then .error "download failed" else .ok "DATA",
    procCSV := fun _ => .error "unused",
    procExcel := fun _ => .error "unused",
    procPDF := fun _ => .error "unused",
    procImage := fun _ => .error "unused",
    procAudio := fun _ => .error "unused",
    procVideo := fun _ => .error "unused",
    askClaude := fun _ => .ok "42",
    post := fun _ _ => .netError "unused" }

/-- C4 witness: with the first candidate failing and the second fully
succeeding, the loop answers from the second candidate, queries the LLM
once, and the third candidate contributes no event. -/
theorem solveFiles_first_success_wins_witness :
    solveFiles envC4w "Q" "C" ([fileC4g] ++ fileC4b :: [fileC4h]) =
      (some (AnswerValue.num (.val 42)),
        [Event.download "http://x/g0.txt", Event.download "http://x/f1.txt",
         Event.llm (.fileGrounded "Q" "f1" "DATA" "C")]) ∧
    countLlm [Event.download "http://x/f1.txt",
      Event.llm (.fileGrounded "Q" "f1" "DATA" "C")] = 1 := by
  have h := solveFiles_first_success_wins envC4w "Q" "C" [fileC4g] [fileC4h] fileC4b
    (AnswerValue.num (.val 42))
    [Event.download "http://x/f1.txt", Event.llm (.fileGrounded "Q" "f1" "DATA" "C")]
    (by
      intro g hg
      simp only [List.mem_singleton] at hg
      subst hg
      with_unfolding_all rfl)
    (by with_unfolding_all rfl)
  exact ⟨h.1.trans (by with_unfolding_all rfl), h.2⟩

/-! ## Claim C8 -/

/-- The only file candidate of the C8 counterexample. -/
def fileC8 : FileInfo := { url := "http://x/f0.txt", text := "f0" }

/-- Quiz page for the C8 counterexample: a single candidate file. -/
def qdC8 : QuizData :=
  { question := "Q", content := "C", submitUrl := some "http://x/submit",
    files := [fileC8] }

/-- Environment for the C8 counterexample: the file downloads and extracts
fine (text), but the LLM throws on the file-grounded prompt and answers
`7` on the context-only prompt. -/
def envC8 : Env :=
  { extractQuizFromPage := fun _ => .error "unused",
    downloadFile := fun _ => .ok "DATA",
    procCSV := fun _ => .error "unused",
    procExcel := fun _ => .error "unused",
    procPDF := fun _ => .error "unused",
    procImage := fun _ => .error "unused",
    procAudio := fun _ => .error "unused",
    procVideo := fun _ => .error "unused",
    askClaude := fun p =>
      match p with
      | .fileGrounded _ _ _ _ => .error "LLM down"
      | .contextOnly _ _ => .ok "7",
    post := fun _ _ => .netError "unused" }

/-- C8 counterexample: the claim says the context-only prompt is used
exactly when the file list is empty or every file failed to yield usable
content (extraction), but here the single file's extraction succeeds —
only the LLM query for it throws — and the solver still falls back to the
context-only prompt. -/
theorem solveQuizQuestion_context_prompt_despite_extraction :
    (extractOutcome envC8 fileC8).isOk = true ∧
    qdC8.files = [fileC8] ∧
    hasContextPrompt (solveQuizQuestion envC8 qdC8).2 = true ∧
    (solveQuizQuestion envC8 qdC8).1 = .ok (AnswerValue.num (.val 7)) := by
  refine ⟨?_, ?_, ?_, ?_⟩ <;> with_unfolding_all rfl

/-- C8 (amended): a per-file extraction failure (downloader or extractor
throwing) is caught and is non-fatal — the loop records only the download
attempt and continues with the remaining candidates exactly as if the
failed file were absent; and the context-only prompt is used exactly when
the file list is empty or every file's whole attempt (extraction or the
subsequent LLM query) failed. -/
theorem solveFiles_extraction_failure_nonfatal :
    (∀ (env : Env) (q c : String) (f : FileInfo) (rest : List FileInfo) (e : String),
      extractOutcome env f = .error e →
      solveFiles env q c (f :: rest) =
        ((solveFiles env q c rest).1,
          Event.download f.url :: (solveFiles env q c rest).2)) ∧
    (∀ (env : Env) (qd : QuizData),
      hasContextPrompt (solveQuizQuestion env qd).2 =
        qd.files.all fun f => !(fileAttempt env qd.question qd.content f).1.isOk) := by
  constructor
  · intro env q c f rest e h
    have hfa : fileAttempt env q c f = (.error e, [Event.download f.url]) := by
      simp only [fileAttempt, h]
    simp [solveFiles, hfa]
  · intro env qd
    have hnone := solveFiles_none_iff_all_fail env qd.question qd.content qd.files
    have hnoctx := solveFiles_no_context_prompt env qd.question qd.content qd.files
    cases hsf : solveFiles env qd.question qd.content qd.files with
    | mk ro evs =>
      rw [hsf] at hnone hnoctx
      cases ro with
      | some a =>
        simp only [solveQuizQuestion, hsf]
        simp only [Option.isNone_some] at hnone
        rw [← hnone]
        exact hnoctx
      | none =>
        simp only [solveQuizQuestion, hsf]
        simp only [Option.isNone_none] at hnone
        cases ha : env.askClaude (.contextOnly qd.question qd.content) with
        | error e =>
          simp only [hasContextPrompt, List.any_append] at hnoctx ⊢
          simp [← hnone, hnoctx]
        | ok a =>
          simp only [hasContextPrompt, List.any_append] at hnoctx ⊢
          simp [← hnone, hnoctx]

/-- The single file candidate of the C8 witness. -/
def fileC8w : FileInfo := { url := "http://x/w.txt", text := "w" }

/-- Environment for the C8 witness: the downloader throws for every URL. -/
def envC8w : Env :=
  { extractQuizFromPage := fun _ => .error "unused",
    downloadFile := fun _ => .error "download timeout",
    procCSV := fun _ => .error "unused",
    procExcel := fun _ => .error "unused",
    procPDF := fun _ => .error "unused",
    procImage := fun _ => .error "unused",
    procAudio := fun _ => .error "unused",
    procVideo := fun _ => .error "unused",
    askClaude := fun _ => .ok "7",
    post := fun _ _ => .netError "unused" }

/-- C8 witness: a concrete extraction failure is swallowed — the loop on
`[fileC8w]` equals the loop on `[]` plus the recorded download attempt. -/
theorem solveFiles_extraction_failure_nonfatal_witness :
    solveFiles envC8w "Q" "C" [fileC8w] =
      ((solveFiles envC8w "Q" "C" []).1,
        Event.download "http://x/w.txt" :: (solveFiles envC8w "Q" "C" []).2) :=
  solveFiles_extraction_failure_nonfatal.1 envC8w "Q" "C" fileC8w [] "download timeout"
    (by with_unfolding_all rfl)

/-! ## Claim C9 -/

/-- C9: when the submission POST receives an HTTP error response that
carries a body, `submitAnswer` returns that body as the SubmissionResult
instead of rethrowing, and the attempt maps it into
`{success: correct, nextUrl: url, error: reason}`; a failure with no
structured response body propagates out of `submitAnswer` and makes the
attempt return `{success: false}` carrying the error message. -/
theorem submitAnswer_error_body_is_result :
    ∀ (env : Env) (email secret quizUrl : String) (qd : QuizData)
      (a : AnswerValue) (evs : List Event) (d : SubmissionResult) (m : String),
      env.extractQuizFromPage quizUrl = .ok qd →
      solveQuizQuestion env qd = (.ok a, evs) →
      ((env.post qd.submitUrl
          { email := email, secret := secret, url := quizUrl, answer := a } = .httpError d →
        submitAnswer env email secret quizUrl a qd.submitUrl = .ok d ∧
        (solveSingleQuiz env email secret quizUrl).1 =
          { success := d.correct, nextUrl := d.url, error := d.reason }) ∧
       (env.post qd.submitUrl
          { email := email, secret := secret, url := quizUrl, answer := a } = .netError m →
        submitAnswer env email secret quizUrl a qd.submitUrl = .error m ∧
        (solveSingleQuiz env email secret quizUrl).1 =
          { success := false, nextUrl := none, error := some m })) := by
  intro env email secret quizUrl qd a evs d m hq hs
  constructor
  · intro hp
    have hsub : submitAnswer env email secret quizUrl a qd.submitUrl = .ok d := by
      simp only [submitAnswer, hp]
    refine ⟨hsub, ?_⟩
    simp only [solveSingleQuiz, solveSingleQuizBody, hq, hs, hsub]
  · intro hp
    have hsub : submitAnswer env email secret quizUrl a qd.submitUrl = .error m := by
      simp only [submitAnswer, hp]
    refine ⟨hsub, ?_⟩
    simp only [solveSingleQuiz, solveSingleQuizBody, hq, hs, hsub]

/-- Quiz page for the C9 witness: no files, so the answer comes from the
context-only prompt. -/
def qdC9 : QuizData :=
  { question := "Q", content := "C", submitUrl := some "http://x/submit",
    files := [] }

/-- Grading response body of the C9 witness, delivered on an HTTP error
status. -/
def dC9 : SubmissionResult :=
  { correct := false, url := some "https://next", reason := some "bad answer" }

/-- Environment for the C9 witness: rendering and LLM succeed, the
submission POST fails with an HTTP error status whose body is `dC9`. -/
def envC9 : Env :=
  { extractQuizFromPage := fun _ => .ok qdC9,
    downloadFile := fun _ => .error "unused",
    procCSV := fun _ => .error "unused",
    procExcel := fun _ => .error "unused",
    procPDF := fun _ => .error "unused",
    procImage := fun _ => .error "unused",
    procAudio := fun _ => .error "unused",
    procVideo := fun _ => .error "unused",
    askClaude := fun _ => .ok "4",
    post := fun _ _ => .httpError dC9 }

/-- C9 witness: the concrete HTTP-error body becomes the submission result
and the attempt resolves to `{success: false, nextUrl: "https://next",
error: "bad answer"}`. -/
theorem submitAnswer_error_body_is_result_witness :
    submitAnswer envC9 "a@b.c" "s3cret" "https://quiz/1" (AnswerValue.num (.val 4))
      (some "http://x/submit") = .ok dC9 ∧
    (solveSingleQuiz envC9 "a@b.c" "s3cret" "https://quiz/1").1 =
      { success := false, nextUrl := some "https://next", error := some "bad answer" } := by
  have h := (submitAnswer_error_body_is_result envC9 "a@b.c" "s3cret" "https://quiz/1"
    qdC9 (AnswerValue.num (.val 4)) [Event.llm (.contextOnly "Q" "C")] dC9 "unused"
    rfl (by with_unfolding_all rfl)).1 rfl
  exact ⟨h.1, h.2⟩
